import Mathlib

/-!
# Verification of the llm-router core against its specification

This file gives a shallow embedding, in Lean 4, of the routing, retry,
error-classification, stream-production and response-conversion code of the
`llm-router` Go repository, and proves (or refutes) the frozen claims about it.

Conventions used by the embedding:
* Go `error` values become the inductive `GoError`; `nil` errors become
  `Option GoError`/`Except` success.  `errors.Is` / `errors.As` walk the
  `Unwrap` chain exactly as in the Go standard library.
* Go maps used by the router are modelled as association lists; lookup takes
  the first binding, matching a map with unique keys.  The provider scan in
  `resolveProvider` ranges over the list in order (Go map iteration order is
  unspecified; the list order is one admissible order, and the spec declares
  the scan order unspecified).
* Machine integers (`int`, `int64`, token counts, status codes) are modelled
  as `Int`; the verified claims never exercise overflow.
* Durations (`time.Duration`) are modelled as `Nat` nanoseconds.
  `calculateBackoff` multiplies by an exact power of two, which is exact in
  `float64` for all values that fit, so the `Nat` model is faithful.
* Channels become the list of events sent before close, in order; a producer
  goroutine becomes a function from its backend input sequence to that list.
* Remote SDK calls (Anthropic, Gemini backends, the `gobreaker` library) are
  external collaborators, passed in as function parameters / decision flags.
-/

namespace LLMRouter

/-! ## Errors (src/errors.go) -/

/-- The sentinel errors declared in `errors.go` (`errors.New` values,
compared by identity). -/
inductive Sentinel where
  | unknownModel
  | unknownProvider
  | noProviders
  | rateLimited
  | contextCanceled
  | streamClosed
  | invalidRequest
  | authFailed
  | providerError
  | circuitOpen
  | maxRetriesExceed
  deriving DecidableEq, Repr

/-- The message each sentinel was created with in `errors.go`. -/
def sentinelMsg : Sentinel → String
  | .unknownModel => "unknown model"
  | .unknownProvider => "unknown provider"
  | .noProviders => "no providers registered"
  | .rateLimited => "rate limited"
  | .contextCanceled => "context canceled"
  | .streamClosed => "stream closed"
  | .invalidRequest => "invalid request"
  | .authFailed => "authentication failed"
  | .providerError => "provider error"
  | .circuitOpen => "circuit breaker is open"
  | .maxRetriesExceed => "max retries exceeded"

/-- A non-nil Go `error` value as the router code can observe it:
a sentinel, an `*APIError` (provider, status code, message, type, wrapped
cause — the nullable `Err` field is encoded by the two constructors `api`
(nil cause) and `apiCaused`), a `fmt.Errorf("...%w...")` wrapper, or an
opaque foreign error. -/
inductive GoError where
  | sentinel (s : Sentinel)
  | api (provider : String) (statusCode : Int) (message etype : String)
  | apiCaused (provider : String) (statusCode : Int) (message etype : String)
      (cause : GoError)
  | wrapf (msg : String) (cause : GoError)
  | plain (msg : String)
  deriving DecidableEq, Repr

/-- The `errors.Is(err, target)` for a sentinel target: identity at each step of
the `Unwrap` chain (`APIError.Unwrap` returns the cause field, which stops
the chain when nil). -/
def errIs : GoError → Sentinel → Bool
  | .sentinel s, t => s = t
  | .api _ _ _ _, _ => false
  | .apiCaused _ _ _ _ c, t => errIs c t
  | .wrapf _ c, t => errIs c t
  | .plain _, _ => false

/-- The fields of an `*APIError` as matched by `errors.As`. -/
structure APIErrorView where
  provider : String
  statusCode : Int
  message : String
  etype : String
  cause : Option GoError
  deriving DecidableEq, Repr

/-- The `errors.As(err, &apiErr)`: the first `*APIError` along the unwrap
chain, if any. -/
def asAPIError : GoError → Option APIErrorView
  | .api p sc m ty => some ⟨p, sc, m, ty, none⟩
  | .apiCaused p sc m ty c => some ⟨p, sc, m, ty, some c⟩
  | .wrapf _ c => asAPIError c
  | .sentinel _ => none
  | .plain _ => none

/-- The `IsRetryable` from `src/errors.go` lines 44–89, on `Option GoError`
(`none` is the nil error). -/
def IsRetryable : Option GoError → Bool
  | none => false
  | some err =>
    if errIs err .contextCanceled then false
    else if errIs err .authFailed then false
    else if errIs err .invalidRequest then false
    else
      match asAPIError err with
      | some apiErr =>
        if apiErr.statusCode = 429 then true
        else if apiErr.statusCode = 500 ∨ apiErr.statusCode = 502 ∨
            apiErr.statusCode = 503 ∨ apiErr.statusCode = 504 then true
        else if apiErr.statusCode = 401 ∨ apiErr.statusCode = 403 ∨
            apiErr.statusCode = 400 then false
        else if errIs err .rateLimited then true
        else true
      | none =>
        if errIs err .rateLimited then true
        else true

/-- The `Error()` rendering of a `GoError` (used by `fmt.Errorf("%v")`). -/
def goErrorString : GoError → String
  | .sentinel s => sentinelMsg s
  | .api p _ m _ => p ++ ": " ++ m
  | .apiCaused p _ m _ c => p ++ ": " ++ m ++ ": " ++ goErrorString c
  | .wrapf m _ => m
  | .plain m => m

/-- The `fmt` rendering of a possibly-nil error with the `%v` verb. -/
def errVString : Option GoError → String
  | none => "<nil>"
  | some e => goErrorString e

/-! ## Canonical model (src/types.go) -/

/-- The `Role` is a string type in the source (`type Role string`). -/
abbrev Role := String

/-- The `FuncCall` from `types.go`. -/
structure FuncCall where
  name : String
  arguments : String
  deriving DecidableEq, Repr

/-- The `ToolCall` from `types.go` (`Index *int` is a nullable pointer). -/
structure ToolCall where
  id : String
  type_ : String
  function : FuncCall
  index : Option Int := none
  deriving DecidableEq, Repr

/-- The `Message` from `types.go`. -/
structure Message where
  role : Role
  content : String
  name : String := ""
  toolCalls : List ToolCall := []
  toolCallID : String := ""
  deriving DecidableEq, Repr

/-- The `Delta` from `types.go`. -/
structure Delta where
  role : Role := ""
  content : String := ""
  toolCalls : List ToolCall := []
  deriving DecidableEq, Repr

/-- The `Usage` from `types.go`. -/
structure Usage where
  promptTokens : Int
  completionTokens : Int
  totalTokens : Int
  deriving DecidableEq, Repr

/-- The `Choice` from `types.go` (`Message`/`Delta` are nullable pointers). -/
structure Choice where
  index : Int
  message : Option Message := none
  delta : Option Delta := none
  finishReason : String := ""
  deriving DecidableEq, Repr

/-- The `Response` from `types.go`. -/
structure Response where
  id : String := ""
  object : String := ""
  created : Int := 0
  model : String := ""
  choices : List Choice := []
  usage : Option Usage := none
  provider : String := ""
  deriving DecidableEq, Repr

/-- The `Function` from `types.go`; the raw JSON-schema bytes of `Parameters`
are kept as an uninterpreted string (`none` is a nil `json.RawMessage`). -/
structure Function where
  name : String
  description : String := ""
  parameters : Option String := none
  deriving DecidableEq, Repr

/-- The `Tool` from `types.go`. -/
structure Tool where
  type_ : String
  function : Function
  deriving DecidableEq, Repr

/-- The `FuncRef` from `types.go`. -/
structure FuncRef where
  name : String
  deriving DecidableEq, Repr

/-- The `ToolChoice` from `types.go`. -/
structure ToolChoice where
  type_ : String := ""
  function : Option FuncRef := none
  deriving DecidableEq, Repr

/-- The `Request` from `types.go`.  The float-valued sampling knobs and the
`Metadata map[string]any` bag are payload the verified operations never
inspect; temperature/top-p are carried as uninterpreted rationals. -/
structure Request where
  messages : List Message := []
  model : String := ""
  tools : List Tool := []
  toolChoice : Option ToolChoice := none
  temperature : Option Rat := none
  maxTokens : Option Int := none
  topP : Option Rat := none
  stop : List String := []
  deriving DecidableEq, Repr

/-- The `Event` from `types.go`: a struct with a `Type` tag and the field the
producing code populates for that tag, modelled as a tagged union (the
source only ever constructs these four shapes). -/
inductive Event where
  | contentDelta (content : String)
  | toolCallDelta (delta : Delta)
  | done (response : Response)
  | error (e : GoError)
  deriving DecidableEq, Repr

/-- The `Choices[0].Message.Content` of a response, when present. -/
def assistantContent (r : Response) : Option String :=
  r.choices.head?.bind fun c => c.message.map (·.content)

/-- Concatenation of the `Content` of all `ContentDelta` events, in order. -/
def contentConcat : List Event → String
  | [] => ""
  | .contentDelta s :: rest => s ++ contentConcat rest
  | _ :: rest => contentConcat rest

/-- Whether an event is a stream terminator (`Done` or `Error`). -/
def Event.isTerminal : Event → Bool
  | .done _ => true
  | .error _ => true
  | _ => false

/-- A channel's event list is well terminated when it carries exactly one
terminator and that terminator is the last event sent before close. -/
def oneTerminalAtEnd (evs : List Event) : Bool :=
  evs.countP (Event.isTerminal ·) = 1 &&
    (match evs.getLast? with
     | some e => e.isTerminal
     | none => false)

/-! ## Provider contract and router (src/provider.go, src/unnamed/part_004) -/

/-- The `Provider` interface: identity, declared models, tool flag, and the
two entry points.  `complete` maps a request to the outcome of one
invocation; `stream` maps a request to either a synchronous error or the
full list of events the producer sends before closing the channel. -/
structure Provider where
  name : String
  models : List String
  supportsTools : Bool
  complete : Request → Except GoError Response
  stream : Request → Except GoError (List Event)

/-- Inner loop of the provider scan in `resolveProvider`
(`for _, m := range p.Models() { if m == model { return p } }`). -/
def declaresModel : List String → String → Bool
  | [], _ => false
  | m :: rest, model => if m = model then true else declaresModel rest model

/-- Outer loop of the provider scan in `resolveProvider`
(`for _, p := range r.providers`), over the registry in list order. -/
def findByModel : List (String × Provider) → String → Option Provider
  | [], _ => none
  | (_, p) :: rest, model =>
    if declaresModel p.models model then some p else findByModel rest model

/-- The error `fmt.Errorf("%w: %s", ErrUnknownModel, model)` built at the
end of `resolveProvider`. -/
def unknownModelError (model : String) : GoError :=
  .wrapf (sentinelMsg .unknownModel ++ ": " ++ model) (.sentinel .unknownModel)

/-- Shared fallthrough of `resolveProvider` once the model-map step has not
produced a provider: direct provider-name match, then the scan, then the
wrapped `ErrUnknownModel`. -/
def resolveFallback (providers : List (String × Provider)) (model : String) :
    Except GoError Provider :=
  match providers.lookup model with
  | some p => .ok p
  | none =>
    match findByModel providers model with
    | some p => .ok p
    | none => .error (unknownModelError model)

/-- The `resolveProvider` from `src/unnamed/part_004` lines 60–90. -/
def resolveProvider (providers : List (String × Provider))
    (modelMap : List (String × String)) (model : String) :
    Except GoError Provider :=
  if providers.isEmpty then
    .error (.sentinel .noProviders)
  else
    match modelMap.lookup model with
    | some providerName =>
      match providers.lookup providerName with
      | some p => .ok p
      | none => resolveFallback providers model
    | none => resolveFallback providers model

/-- Resolution algorithm as the specification words it (§4.1 steps 1–5 /
claim C1), written independently of the source: empty registry, then the
model map when it names a registered provider, then a provider-name match,
then the first registered provider declaring the model, else the wrapped
`ErrUnknownModel` mentioning the model string. -/
def specResolve (providers : List (String × Provider))
    (modelMap : List (String × String)) (M : String) :
    Except GoError Provider :=
  if providers.isEmpty then
    .error (.sentinel .noProviders)
  else
    match (modelMap.lookup M).bind fun n => providers.lookup n with
    | some p => .ok p
    | none =>
      match providers.lookup M with
      | some p => .ok p
      | none =>
        match providers.find? fun e => e.2.models.contains M with
        | some e => .ok e.2
        | none => .error (unknownModelError M)

end LLMRouter

namespace Middleware

open LLMRouter

/-! ## Retry middleware (src/unnamed/part_005)

The wrapped provider's call is modelled as a function from the attempt
index (0-based) to that invocation's outcome, so one model covers both a
deterministic provider and a backend whose failures vary between attempts.
The caller's context is modelled as never cancelled: the claims under
verification do not exercise the cancellation branch of the sleep
`select`.  The trace returned alongside the result records how many times
the inner call was invoked and the sleeps performed, in order. -/

/-- Configuration of `retryProvider` (`maxAttempts` is a Go `int`, so it
may be zero or negative; delays are nanoseconds). -/
structure RetryPolicy where
  maxAttempts : Int
  baseDelay : Nat
  maxDelay : Nat
  retryable : GoError → Bool

/-- The `calculateBackoff` from `src/unnamed/part_005` lines 115–121:
`baseDelay × 2^(attempt−1)` capped at `maxDelay` (the float64
multiplication by a power of two is exact). -/
def calculateBackoff (p : RetryPolicy) (attempt : Nat) : Nat :=
  min (p.baseDelay * 2 ^ (attempt - 1)) p.maxDelay

/-- The `fmt.Errorf("%w: %v", llmrouter.ErrMaxRetriesExceed, lastErr)`. -/
def maxRetriesError (lastErr : Option GoError) : GoError :=
  .wrapf (sentinelMsg .maxRetriesExceed ++ ": " ++ errVString lastErr)
    (.sentinel .maxRetriesExceed)

/-- The retry loop shared verbatim by `retryProvider.Complete` (lines
61–86) and `retryProvider.Stream` (lines 88–113), generic in the result
type of the wrapped call.  `attempt` is the Go loop variable, `remaining`
the number of loop iterations still allowed (`maxAttempts − attempt`).
Returns the result, the number of inner invocations, and the sleeps. -/
def retryRun (p : RetryPolicy) (inner : Nat → Except GoError α) :
    (attempt remaining : Nat) → (lastErr : Option GoError) →
    Except GoError α × Nat × List Nat
  | _, 0, lastErr => (.error (maxRetriesError lastErr), 0, [])
  | attempt, remaining + 1, _ =>
    let sleeps0 : List Nat :=
      if attempt > 0 then [calculateBackoff p attempt] else []
    match inner attempt with
    | .ok r => (.ok r, 1, sleeps0)
    | .error e =>
      if p.retryable e then
        let rest := retryRun p inner (attempt + 1) remaining (some e)
        (rest.1, rest.2.1 + 1, sleeps0 ++ rest.2.2)
      else (.error e, 1, sleeps0)

/-- The `retryProvider.Complete`: the loop started at attempt 0 with
`maxAttempts` iterations allowed (no iterations when `maxAttempts ≤ 0`)
and a nil `lastErr`. -/
def retryComplete (p : RetryPolicy) (inner : Nat → Except GoError Response) :
    Except GoError Response × Nat × List Nat :=
  retryRun p inner 0 p.maxAttempts.toNat none

/-- The `retryProvider.Stream`: identical loop over the stream-establishing
call. -/
def retryStream (p : RetryPolicy)
    (inner : Nat → Except GoError (List Event)) :
    Except GoError (List Event) × Nat × List Nat :=
  retryRun p inner 0 p.maxAttempts.toNat none

/-! ## Timeout middleware (src/middleware/timeout.go)

`timeoutProvider.Complete` calls the inner provider under a derived
deadline and returns its result unchanged.  `timeoutProvider.Stream` wraps
the inner channel with a forwarding goroutine whose `select` races each
receive (and each send) against `ctx.Done()`.  The nondeterministic
schedule is the point, if any, at which the goroutine observes the expired
context: observing it at step `n ≤` (number of inner events) means the
goroutine forwarded `n` inner events and then took the `ctx.Done()`
branch — which can happen even after the inner terminator was forwarded,
because the producer closes the channel only after its final send, and the
`select` chooses among ready branches arbitrarily. -/

/-- The `ctx.Err()` after the derived deadline expires. -/
def ctxDeadlineErr : GoError := .plain "context deadline exceeded"

/-- The events sent on the wrapper's output channel, given the inner
channel's events and the schedule of the context-expiry observation. -/
def timeoutStreamEvents (inner : List Event) (obsAt : Option Nat) :
    List Event :=
  match obsAt with
  | none => inner
  | some n =>
    if n ≤ inner.length then inner.take n ++ [.error ctxDeadlineErr]
    else inner

/-! ## Circuit-breaker middleware (src/middleware/circuitbreaker.go)

The `gobreaker` library is an external collaborator; its `Execute` either
rejects the call (open / half-open-saturated state) or runs the wrapped
function and passes its result through.  The admission decision is the
`allow` flag of the wrapper model. -/

/-- The middleware chain entries the repository ships, as applied to a
provider by `Middleware.Wrap`.  The timeout wrapper's channel adaptation
is `timeoutStreamEvents` above; at the `Complete`/establishment level both
it and the un-expired stream path return the inner result unchanged. -/
inductive Wrapper where
  | timeout (d : Nat)
  | retry (p : RetryPolicy)
  | circuitBreaker (allow : Bool)

/-- The `Wrap` for each middleware: the provider the router actually calls. -/
def Wrapper.wrap : Wrapper → Provider → Provider
  | .timeout _, inner =>
    { inner with
      complete := fun req => inner.complete req
      stream := fun req => inner.stream req }
  | .retry p, inner =>
    { inner with
      complete := fun req => (retryComplete p fun _ => inner.complete req).1
      stream := fun req => (retryStream p fun _ => inner.stream req).1 }
  | .circuitBreaker allow, inner =>
    { inner with
      complete := fun req =>
        if allow then inner.complete req
        else .error (.sentinel .circuitOpen)
      stream := fun req =>
        if allow then inner.stream req
        else .error (.sentinel .circuitOpen) }

end Middleware

namespace LLMRouter

/-- The router's state: registry, model map and middleware, all owned by
the router (`src/unnamed/part_004`). -/
structure Router where
  providers : List (String × Provider)
  modelMap : List (String × String)
  middleware : List Middleware.Wrapper

/-- The `buildChain` (lines 92–100): wrap back-to-front so the
first-registered middleware is outermost. -/
def buildChain (mws : List Middleware.Wrapper) (provider : Provider) :
    Provider :=
  mws.foldr (fun m acc => m.wrap acc) provider

/-- The `Router.Complete` (lines 44–52): resolve (returning the resolution
error as-is on failure), build the chain, call it. -/
def Router.complete (r : Router) (req : Request) :
    Except GoError Response :=
  match resolveProvider r.providers r.modelMap req.model with
  | .error e => .error e
  | .ok p => (buildChain r.middleware p).complete req

end LLMRouter

namespace Anthropic

open LLMRouter

/-! ## Anthropic adapter (src/unnamed/part_002, src/unnamed/part_003)

The SDK types the converters consume are embedded below; tool-use block
inputs are carried as their `json.Marshal` rendering, the string the
converter stores in `FuncCall.Arguments`. -/

/-- A content block of a completed `anthropic.Message`. -/
inductive ContentBlock where
  | text (text : String)
  | toolUse (id name : String) (input : String)
  deriving DecidableEq, Repr

/-- The fields of `anthropic.Message` that `convertToOpenAIResponse`
reads.  `stopReason` carries the wire value (`"end_turn"`,
`"max_tokens"`, `"stop_sequence"`, `"tool_use"`, or empty). -/
structure SDKMessage where
  id : String
  model : String
  stopReason : String
  content : List ContentBlock
  inputTokens : Int
  outputTokens : Int
  deriving DecidableEq, Repr

/-- The content fold of `convertToOpenAIResponse` (part_003 lines
146–161): concatenate text blocks, collect tool-use blocks. -/
def extractContent : List ContentBlock → String × List ToolCall
  | [] => ("", [])
  | .text t :: rest =>
    let (c, tcs) := extractContent rest
    (t ++ c, tcs)
  | .toolUse id name input :: rest =>
    let (c, tcs) := extractContent rest
    (c, ⟨id, "function", ⟨name, input⟩, none⟩ :: tcs)

/-- The finish-reason switch of `convertToOpenAIResponse` (lines 163–171):
driven by the native stop reason alone, default `"stop"`. -/
def stopToFinish (stopReason : String) : String :=
  if stopReason = "tool_use" then "tool_calls"
  else if stopReason = "max_tokens" then "length"
  else if stopReason = "stop_sequence" then "stop"
  else "stop"

/-- The `convertToOpenAIResponse` from `src/unnamed/part_003` lines 142–195. -/
def convertToOpenAIResponse (msg : SDKMessage) (provider : String) :
    Response :=
  let (content, toolCalls) := extractContent msg.content
  { id := msg.id
    object := "chat.completion"
    model := msg.model
    provider := provider
    choices := [{ index := 0
                  message := some { role := "assistant"
                                    content := content
                                    toolCalls := toolCalls }
                  finishReason := stopToFinish msg.stopReason }]
    usage := some { promptTokens := msg.inputTokens
                    completionTokens := msg.outputTokens
                    totalTokens := msg.inputTokens + msg.outputTokens } }

/-- The model substitution in `Provider.Complete`/`Provider.Stream`
(part_002 lines 81–85 and 137–141): default when empty or equal to the
provider name `"anthropic"`. -/
def dispatchModel (defaultModel reqModel : String) : String :=
  if reqModel = "" ∨ reqModel = "anthropic" then defaultModel else reqModel

/-- The `Provider.Complete` (part_002 lines 78–130): substitute the model,
call the backend (the SDK `Messages.New` HTTP call, an external
collaborator taking the dispatched model), and convert.  Error wrapping
and the remaining request parameters are orthogonal to the verified
claims and live in the backend function. -/
def complete (defaultModel : String)
    (backend : String → Except GoError SDKMessage) (req : Request) :
    Except GoError Response :=
  match backend (dispatchModel defaultModel req.model) with
  | .error e => .error e
  | .ok msg => .ok (convertToOpenAIResponse msg "anthropic")

/-- One event of the SDK's streaming feed, as the accumulator in
`Provider.Stream` (part_002 lines 195–267) consumes it. -/
inductive StreamEvent where
  | messageStart (id : String) (inputTokens : Int)
  | contentBlockStartText
  | contentBlockStartToolUse (id name : String)
  | contentBlockDeltaText (text : String)
  | contentBlockDeltaInputJSON (partialJSON : String)
  | contentBlockStop
  | messageDelta (stopReason : String) (outputTokens : Int)
  deriving DecidableEq, Repr

/-- The accumulator variables of the streaming goroutine. -/
structure StreamState where
  fullContent : String := ""
  toolCalls : List ToolCall := []
  currentToolID : String := ""
  currentToolName : String := ""
  toolArgsBuilder : String := ""
  inputTokens : Int := 0
  outputTokens : Int := 0
  msgID : String := ""
  stopReason : String := ""
  deriving DecidableEq, Repr

/-- One iteration of the `for stream.Next()` loop: the updated state and
the events sent on the channel during that iteration. -/
def streamStep (st : StreamState) : StreamEvent → StreamState × List Event
  | .messageStart id inputTokens =>
    ({ st with
       msgID := if id ≠ "" then id else st.msgID
       inputTokens := if inputTokens > 0 then inputTokens else st.inputTokens },
     [])
  | .contentBlockStartText => (st, [])
  | .contentBlockStartToolUse id name =>
    ({ st with
       currentToolID := id
       currentToolName := name
       toolArgsBuilder := "" }, [])
  | .contentBlockDeltaText text =>
    ({ st with fullContent := st.fullContent ++ text },
     [.contentDelta text])
  | .contentBlockDeltaInputJSON partialJSON =>
    ({ st with toolArgsBuilder := st.toolArgsBuilder ++ partialJSON },
     [.toolCallDelta
        { toolCalls := [⟨st.currentToolID, "function",
            ⟨st.currentToolName, partialJSON⟩, none⟩] }])
  | .contentBlockStop =>
    if st.currentToolID ≠ "" ∧ st.currentToolName ≠ "" then
      ({ st with
         toolCalls := st.toolCalls ++
           [⟨st.currentToolID, "function",
             ⟨st.currentToolName, st.toolArgsBuilder⟩, none⟩]
         currentToolID := ""
         currentToolName := ""
         toolArgsBuilder := "" }, [])
    else (st, [])
  | .messageDelta stopReason outputTokens =>
    ({ st with
       stopReason := if stopReason ≠ "" then stopReason else st.stopReason
       outputTokens :=
         if outputTokens > 0 then outputTokens else st.outputTokens }, [])

/-- The whole `for stream.Next()` loop from a given state. -/
def streamRun : List StreamEvent → StreamState → StreamState × List Event
  | [], st => (st, [])
  | e :: rest, st =>
    let (st', evs) := streamStep st e
    let (stFin, evsRest) := streamRun rest st'
    (stFin, evs ++ evsRest)

/-- The finish-reason mapping after the streaming loop (part_002 lines
279–284). -/
def streamStopToFinish (stopReason : String) : String :=
  if stopReason = "tool_use" then "tool_calls"
  else if stopReason = "max_tokens" then "length"
  else "stop"

/-- The `Done` response assembled at the end of the streaming goroutine
(part_002 lines 286–311); `now` is `time.Now().Unix()`. -/
def streamDoneResponse (st : StreamState) (model : String) (now : Int) :
    Response :=
  { id := st.msgID
    object := "chat.completion"
    model := model
    provider := "anthropic"
    created := now
    choices := [{ index := 0
                  message := some { role := "assistant"
                                    content := st.fullContent
                                    toolCalls := st.toolCalls }
                  finishReason := streamStopToFinish st.stopReason }]
    usage := some { promptTokens := st.inputTokens
                    completionTokens := st.outputTokens
                    totalTokens := st.inputTokens + st.outputTokens } }

/-- Everything the streaming goroutine of `Provider.Stream` (part_002
lines 180–312) sends before closing the channel, given the SDK events it
drains and `stream.Err()` after the loop (`none` when the feed ended
cleanly).  `model` is the dispatched model, `now` the clock read. -/
def streamEvents (events : List StreamEvent) (streamErr : Option GoError)
    (model : String) (now : Int) : List Event :=
  let (st, evs) := streamRun events {}
  match streamErr with
  | some e => evs ++ [.error e]
  | none => evs ++ [.done (streamDoneResponse st model now)]

end Anthropic

namespace Gemini

open LLMRouter

/-! ## Gemini adapter (src/unnamed/part_001)

`genai` parts carry tool-call arguments as their `json.Marshal` rendering;
`convertFunctionCallArgs` maps a nil args map to `"{}"`. -/

/-- A `genai.Part` as consumed by the converters: text, or a function
call whose `Args` map is `none` (nil) or an already-marshalled object. -/
inductive Part where
  | text (s : String)
  | functionCall (name : String) (args : Option String)
  deriving DecidableEq, Repr

/-- The `convertFunctionCallArgs` (part_001 lines 244–250). -/
def functionCallArgs : Option String → String
  | none => "{}"
  | some s => s

/-- A `genai.Candidate`: nullable content (a part list) and the native
finish reason (`"MaxTokens"`, `"Stop"`, `"Safety"`, or other). -/
structure Candidate where
  content : Option (List Part)
  finishReason : String := ""
  deriving DecidableEq, Repr

/-- The `genai.UsageMetadata`. -/
structure UsageMetadata where
  promptTokenCount : Int
  candidatesTokenCount : Int
  totalTokenCount : Int
  deriving DecidableEq, Repr

/-- A `genai.GenerateContentResponse`. -/
structure SDKResponse where
  candidates : List Candidate
  usageMetadata : Option UsageMetadata := none
  deriving DecidableEq, Repr

/-- The part fold of `convertResponse` (part_001 lines 181–198) over the
first candidate's parts. -/
def extractParts : List Part → String × List ToolCall
  | [] => ("", [])
  | .text s :: rest =>
    let (c, tcs) := extractParts rest
    (s ++ c, tcs)
  | .functionCall name args :: rest =>
    let (c, tcs) := extractParts rest
    (c, ⟨name, "function", ⟨name, functionCallArgs args⟩, none⟩ :: tcs)

/-- The content/tool-call extraction of `convertResponse` on the full
response: only the first candidate, and only when its content is
non-nil. -/
def extractResponse (resp : SDKResponse) : String × List ToolCall :=
  match resp.candidates.head? with
  | some c =>
    match c.content with
    | some parts => extractParts parts
    | none => ("", [])
  | none => ("", [])

/-- The native finish-reason mapping of `convertResponse` (lines
203–212), consulted only when no tool calls were collected. -/
def nativeFinish (reason : String) : String :=
  if reason = "MaxTokens" then "length"
  else if reason = "Stop" then "stop"
  else if reason = "Safety" then "content_filter"
  else "stop"

/-- The `convertResponse` from `src/unnamed/part_001` lines 177–241; `now` is
`time.Now().Unix()`. -/
def convertResponse (resp : SDKResponse) (model provider : String)
    (now : Int) : Response :=
  let (content, toolCalls) := extractResponse resp
  let finishReason :=
    if toolCalls ≠ [] then "tool_calls"
    else
      match resp.candidates.head? with
      | some c => nativeFinish c.finishReason
      | none => "stop"
  { model := model
    provider := provider
    object := "chat.completion"
    created := now
    choices := [{ index := 0
                  message := some { role := "assistant"
                                    content := content
                                    toolCalls := toolCalls }
                  finishReason := finishReason }]
    usage := resp.usageMetadata.map fun u =>
      { promptTokens := u.promptTokenCount
        completionTokens := u.candidatesTokenCount
        totalTokens := u.totalTokenCount } }

/-- The model substitution in `Provider.Complete`/`Provider.Stream`
(part_001 lines 346–349 and 376–379): default only when the request's
model is empty. -/
def dispatchModel (defaultModel reqModel : String) : String :=
  if reqModel = "" then defaultModel else reqModel

/-- The `Provider.Complete` (part_001 lines 345–371): substitute the model,
send through the SDK chat session (external collaborator), convert.  The
adapter's `Name()` is the fixed string `"gemini"`. -/
def complete (defaultModel : String)
    (backend : String → Except GoError SDKResponse) (now : Int)
    (req : Request) : Except GoError Response :=
  match backend (dispatchModel defaultModel req.model) with
  | .error e => .error e
  | .ok resp =>
    .ok (convertResponse resp (dispatchModel defaultModel req.model)
      "gemini" now)

/-- Streaming accumulator of `Provider.Stream` (part_001 lines 399–400). -/
structure StreamState where
  fullContent : String := ""
  toolCalls : List ToolCall := []
  deriving DecidableEq, Repr

/-- Processing of one part inside the streaming loop (lines 419–446). -/
def partStep (st : StreamState) : Part → StreamState × List Event
  | .text s =>
    ({ st with fullContent := st.fullContent ++ s }, [.contentDelta s])
  | .functionCall name args =>
    let tc : ToolCall :=
      ⟨name, "function", ⟨name, functionCallArgs args⟩, none⟩
    ({ st with toolCalls := st.toolCalls ++ [tc] },
     [.toolCallDelta { toolCalls := [tc] }])

/-- The inner part loop of one candidate. -/
def partsRun : List Part → StreamState → StreamState × List Event
  | [], st => (st, [])
  | p :: rest, st =>
    let (st', evs) := partStep st p
    let (stFin, evsRest) := partsRun rest st'
    (stFin, evs ++ evsRest)

/-- The candidate loop of one chunk (skips candidates with nil content,
lines 415–418). -/
def candidatesRun : List Candidate → StreamState → StreamState × List Event
  | [], st => (st, [])
  | c :: rest, st =>
    let (st', evs) :=
      match c.content with
      | none => (st, [])
      | some parts => partsRun parts st
    let (stFin, evsRest) := candidatesRun rest st'
    (stFin, evs ++ evsRest)

/-- The chunk loop over the iterator's yields. -/
def chunksRun : List SDKResponse → StreamState → StreamState × List Event
  | [], st => (st, [])
  | chunk :: rest, st =>
    let (st', evs) := candidatesRun chunk.candidates st
    let (stFin, evsRest) := chunksRun rest st'
    (stFin, evs ++ evsRest)

/-- The `Done` response assembled at the end of the streaming goroutine
(lines 450–475). -/
def streamDoneResponse (st : StreamState) (modelName : String) (now : Int) :
    Response :=
  { model := modelName
    provider := "gemini"
    object := "chat.completion"
    created := now
    choices := [{ index := 0
                  message := some { role := "assistant"
                                    content := st.fullContent
                                    toolCalls := st.toolCalls }
                  finishReason :=
                    if st.toolCalls ≠ [] then "tool_calls" else "stop" }] }

/-- Everything the streaming goroutine of `Provider.Stream` (part_001
lines 394–476) sends before closing the channel: the chunks the iterator
yielded, then either the error `iter.Next()` returned (after wrapping)
or the terminal `Done`. -/
def streamEvents (chunks : List SDKResponse) (iterErr : Option GoError)
    (modelName : String) (now : Int) : List Event :=
  let (st, evs) := chunksRun chunks {}
  match iterErr with
  | some e => evs ++ [.error e]
  | none => evs ++ [.done (streamDoneResponse st modelName now)]

end Gemini

namespace LLMRouter

/-! ## Claim C7 — the default retry classifier -/

/-- The classifier as the amended claim describes it, clause by clause:
not retryable when the error unwraps to `ErrContextCanceled`,
`ErrAuthFailed` or `ErrInvalidRequest`; retryable when it unwraps to an
`APIError` with status 429, 500, 502, 503 or 504; **not** retryable when
it unwraps to an `APIError` with status 400, 401 or 403; retryable when
it unwraps to `ErrRateLimited`; retryable otherwise. -/
def retryableSpec (e : GoError) : Bool :=
  if errIs e .contextCanceled ∨ errIs e .authFailed ∨
      errIs e .invalidRequest then false
  else if (asAPIError e).any fun a =>
      a.statusCode = 429 ∨ a.statusCode = 500 ∨ a.statusCode = 502 ∨
      a.statusCode = 503 ∨ a.statusCode = 504 then true
  else if (asAPIError e).any fun a =>
      a.statusCode = 400 ∨ a.statusCode = 401 ∨ a.statusCode = 403 then
    false
  else if errIs e .rateLimited then true
  else true

/-- C7 (counterexample): a bare `APIError` with status 400 and nil cause
unwraps to none of the three non-retryable sentinels, carries none of the
retryable status codes, and does not unwrap to `ErrRateLimited` — the
claim's final clause ("true for every other non-nil error") demands
`true`, but `IsRetryable` returns `false`. -/
theorem isRetryable_claim_false_at_status400 :
    (errIs (GoError.api "p" 400 "bad request" "") .contextCanceled = false ∧
     errIs (GoError.api "p" 400 "bad request" "") .authFailed = false ∧
     errIs (GoError.api "p" 400 "bad request" "") .invalidRequest = false ∧
     errIs (GoError.api "p" 400 "bad request" "") .rateLimited = false ∧
     asAPIError (GoError.api "p" 400 "bad request" "") =
       some ⟨"p", 400, "bad request", "", none⟩) ∧
    IsRetryable (some (GoError.api "p" 400 "bad request" "")) = false := by
  decide

/-- C7 (amended): `IsRetryable` agrees with the clause-ordered classifier
of the amended claim on every non-nil error (and is `false` on nil). -/
theorem isRetryable_eq_retryableSpec :
    ∀ e : GoError, IsRetryable (some e) = retryableSpec e := by
  intro e
  unfold IsRetryable retryableSpec
  cases hapi : asAPIError e with
  | none =>
    simp only [hapi, Option.any_none]
    split_ifs <;>
      first
      | rfl
      | ((simp only [decide_eq_true_eq] at *) <;> tauto)
  | some a =>
    simp only [hapi, Option.any_some]
    split_ifs <;>
      first
      | rfl
      | ((simp only [decide_eq_true_eq] at *) <;> tauto)

/-! ## Claim C1 — model resolution follows the spec's algorithm -/

/-- The inner model-list loop decides list membership. -/
theorem declaresModel_eq_contains (ms : List String) (m : String) :
    declaresModel ms m = ms.contains m := by
  induction ms with
  | nil => simp [declaresModel]
  | cons x rest ih =>
    rw [declaresModel, List.contains_cons, ih]
    by_cases h : x = m
    · simp [h]
    · have h2 : (m == x) = false := by
        simp only [beq_eq_false_iff_ne, ne_eq]
        exact fun hm => h hm.symm
      simp [h, h2]

/-- The provider scan is the first registered entry declaring the model. -/
theorem findByModel_eq_find? (providers : List (String × Provider))
    (m : String) :
    findByModel providers m =
      (providers.find? fun e => e.2.models.contains m).map (·.2) := by
  induction providers with
  | nil => rfl
  | cons e rest ih =>
    simp only [findByModel, declaresModel_eq_contains, List.find?_cons]
    by_cases h : (e.2.models.contains m) = true
    · simp at h
      simp [h]
    · simp only [Bool.not_eq_true] at h
      simp at h
      simp [h, ih]

/-- C1 (confirmed): `resolveProvider` computes exactly the resolution
algorithm the claim states — empty registry yields `ErrNoProviders`;
then a model-map entry naming a registered provider wins; then a direct
provider-name match; then the first registered provider declaring the
model; otherwise the error wrapping `ErrUnknownModel` whose message
carries the model string. -/
theorem resolveProvider_eq_specResolve
    (providers : List (String × Provider))
    (modelMap : List (String × String)) (M : String) :
    resolveProvider providers modelMap M = specResolve providers modelMap M := by
  unfold resolveProvider specResolve resolveFallback
  by_cases hemp : providers.isEmpty = true
  · rw [if_pos hemp, if_pos hemp]
  · rw [if_neg hemp, if_neg hemp, findByModel_eq_find?]
    cases hmm : modelMap.lookup M with
    | none =>
      simp only [hmm, Option.none_bind]
      cases hpm : providers.lookup M with
      | some p => rfl
      | none =>
        cases hf : providers.find? fun e => e.2.models.contains M <;> rfl
    | some n =>
      simp only [hmm, Option.some_bind]
      cases hpn : providers.lookup n with
      | some p => rfl
      | none =>
        cases hpm : providers.lookup M with
        | some p => rfl
        | none =>
          cases hf : providers.find? fun e => e.2.models.contains M <;> rfl

end LLMRouter

namespace Middleware

open LLMRouter

/-! ## Claims C6 and C10 — the retry wrapper -/

/-- The loop performs at most `remaining` inner invocations. -/
theorem retryRun_calls_le (p : RetryPolicy) (inner : Nat → Except GoError α) :
    ∀ (remaining attempt : Nat) (lastErr : Option GoError),
      (retryRun p inner attempt remaining lastErr).2.1 ≤ remaining := by
  intro remaining
  induction remaining with
  | zero => intro attempt lastErr; simp [retryRun]
  | succ rem ih =>
    intro attempt lastErr
    rw [retryRun]
    cases inner attempt with
    | ok r => simp
    | error e =>
      by_cases hre : p.retryable e = true
      · simpa [hre] using Nat.succ_le_succ (ih (attempt + 1) (some e))
      · simp [hre]

/-- Sleeps recorded when the loop starts at a positive attempt index:
one backoff per invocation. -/
theorem retryRun_sleeps_pos (p : RetryPolicy)
    (inner : Nat → Except GoError α) :
    ∀ (remaining attempt : Nat) (lastErr : Option GoError), 1 ≤ attempt →
      (retryRun p inner attempt remaining lastErr).2.2 =
        (List.range (retryRun p inner attempt remaining lastErr).2.1).map
          fun i => calculateBackoff p (attempt + i) := by
  intro remaining
  induction remaining with
  | zero => intro attempt lastErr _; simp [retryRun]
  | succ rem ih =>
    intro attempt lastErr hatt
    rw [retryRun]
    have hpos : attempt > 0 := hatt
    cases inner attempt with
    | ok r => simp [hpos, List.range_succ]
    | error e =>
      by_cases hre : p.retryable e = true
      · have ihh := ih (attempt + 1) (some e) (by omega)
        simp only [hre, if_true, hpos]
        simp only [List.range_succ_eq_map, List.map_cons, List.map_map]
        have hfun :
            ((fun i => calculateBackoff p (attempt + i)) ∘ Nat.succ) =
              fun i => calculateBackoff p (attempt + 1 + i) := by
          funext i
          have : attempt + Nat.succ i = attempt + 1 + i := by omega
          simp [Function.comp, this]
        simp [ihh, hfun]
      · simp [hre, hpos, List.range_succ]

/-- Sleeps recorded from attempt 0 (the wrapper's entry point): no sleep
before the first invocation, then one backoff per further invocation. -/
theorem retryRun_sleeps_zero (p : RetryPolicy)
    (inner : Nat → Except GoError α) (remaining : Nat)
    (lastErr : Option GoError) :
    (retryRun p inner 0 remaining lastErr).2.2 =
      (List.range ((retryRun p inner 0 remaining lastErr).2.1 - 1)).map
        fun i => calculateBackoff p (1 + i) := by
  cases remaining with
  | zero => simp [retryRun]
  | succ rem =>
    rw [retryRun]
    cases inner 0 with
    | ok r => simp
    | error e =>
      by_cases hre : p.retryable e = true
      · have h := retryRun_sleeps_pos p inner rem 1 (some e) (le_refl 1)
        simp [hre, h]
      · simp [hre]

/-- When every attempt fails retryably, the loop exhausts `remaining`
invocations and wraps the last error into `ErrMaxRetriesExceed`. -/
theorem retryRun_exhausts (p : RetryPolicy)
    (inner : Nat → Except GoError α) (errs : Nat → GoError)
    (hin : ∀ k, inner k = .error (errs k)) :
    ∀ (remaining attempt : Nat) (lastErr : Option GoError),
      (∀ k, k < attempt + remaining → p.retryable (errs k) = true) →
      (retryRun p inner attempt remaining lastErr).1 =
          .error (maxRetriesError
            (if remaining = 0 then lastErr
             else some (errs (attempt + remaining - 1)))) ∧
        (retryRun p inner attempt remaining lastErr).2.1 = remaining := by
  intro remaining
  induction remaining with
  | zero => intro attempt lastErr _; simp [retryRun]
  | succ rem ih =>
    intro attempt lastErr hre
    rw [retryRun]
    have hcur : p.retryable (errs attempt) = true := hre attempt (by omega)
    have ihh := ih (attempt + 1) (some (errs attempt))
      (fun k hk => hre k (by omega))
    rcases ihh with ⟨hres, hcalls⟩
    simp only [hin attempt, hcur, if_true]
    constructor
    · rw [hres]
      have harg : (if rem = 0 then some (errs attempt)
          else some (errs (attempt + 1 + rem - 1))) =
          some (errs (attempt + rem)) := by
        cases rem with
        | zero => simp
        | succ r =>
          have harith : attempt + 1 + Nat.succ r - 1 = attempt + Nat.succ r := by
            omega
          simp [harith]
      rw [harg]
      have hne : ¬(Nat.succ rem = 0) := by omega
      simp only [hne, if_false]
      have harith2 : attempt + Nat.succ rem - 1 = attempt + rem := by omega
      rw [harith2]
    · simp [hcalls]

/-- A non-retryable failure at relative position `j` stops the loop with
that error after exactly `j + 1` invocations. -/
theorem retryRun_stops_nonretryable (p : RetryPolicy)
    (inner : Nat → Except GoError α) (errs : Nat → GoError)
    (hin : ∀ k, inner k = .error (errs k)) :
    ∀ (j remaining attempt : Nat) (lastErr : Option GoError),
      j < remaining →
      (∀ k, k < j → p.retryable (errs (attempt + k)) = true) →
      p.retryable (errs (attempt + j)) = false →
      (retryRun p inner attempt remaining lastErr).1 =
          .error (errs (attempt + j)) ∧
        (retryRun p inner attempt remaining lastErr).2.1 = j + 1 := by
  intro j
  induction j with
  | zero =>
    intro remaining attempt lastErr hlt _ hj
    cases remaining with
    | zero => omega
    | succ rem =>
      rw [retryRun]
      simp only [Nat.add_zero] at hj
      simp [hin attempt, hj]
  | succ j ih =>
    intro remaining attempt lastErr hlt hks hj
    cases remaining with
    | zero => omega
    | succ rem =>
      rw [retryRun]
      have h0 : p.retryable (errs attempt) = true := by
        have := hks 0 (by omega)
        simpa using this
      have ihh := ih rem (attempt + 1) (some (errs attempt)) (by omega)
        (fun k hk => by
          have := hks (k + 1) (by omega)
          have harith : attempt + (k + 1) = attempt + 1 + k := by omega
          rwa [harith] at this)
        (by
          have harith : attempt + (j + 1) = attempt + 1 + j := by omega
          rwa [harith] at hj)
      rcases ihh with ⟨hres, hcalls⟩
      simp only [hin attempt, h0, if_true]
      refine ⟨?_, by simp [hcalls]⟩
      rw [hres]
      have harith : attempt + 1 + j = attempt + Nat.succ j := by omega
      rw [harith]

/-- A successful result always comes from an inner invocation. -/
theorem retryRun_ok_from_inner (p : RetryPolicy)
    (inner : Nat → Except GoError α) :
    ∀ (remaining attempt : Nat) (lastErr : Option GoError) (r : α),
      (retryRun p inner attempt remaining lastErr).1 = .ok r →
      ∃ k, inner k = .ok r := by
  intro remaining
  induction remaining with
  | zero => intro attempt lastErr r h; simp [retryRun] at h
  | succ rem ih =>
    intro attempt lastErr r h
    rw [retryRun] at h
    cases hcur : inner attempt with
    | ok r' =>
      simp only [hcur] at h
      exact ⟨attempt, by rw [hcur]; injection h with h; rw [h]⟩
    | error e =>
      simp only [hcur] at h
      by_cases hre : p.retryable e = true
      · simp only [hre, if_true] at h
        exact ih (attempt + 1) (some e) r h
      · simp [hre] at h

/-- C6 (confirmed): the retry wrapper invokes the wrapped `Complete` at
most `maxAttempts` times; when every attempt fails with a retryable
error it performs exactly `maxAttempts` attempts and returns
`ErrMaxRetriesExceed` wrapping the last error's rendering; a
non-retryable failure at attempt `j` (0-based, after `j` retryable
failures) is returned as-is after exactly `j + 1` attempts; and the
sleep before the `k`-th attempt (`k ≥ 2`, i.e. the `(k−2)`-th recorded
sleep) is `min(baseDelay × 2^(k−2), maxDelay)`. -/
theorem retryComplete_spec (p : RetryPolicy)
    (inner : Nat → Except GoError Response) (errs : Nat → GoError)
    (N : Nat) (hN : p.maxAttempts.toNat = N) :
    ((retryComplete p inner).2.1 ≤ N) ∧
    ((∀ k, inner k = .error (errs k)) →
      ((∀ k, k < N → p.retryable (errs k) = true) → 0 < N →
        (retryComplete p inner).1 =
            .error (maxRetriesError (some (errs (N - 1)))) ∧
          (retryComplete p inner).2.1 = N) ∧
      (∀ j, j < N → (∀ k, k < j → p.retryable (errs k) = true) →
        p.retryable (errs j) = false →
        (retryComplete p inner).1 = .error (errs j) ∧
          (retryComplete p inner).2.1 = j + 1)) ∧
    ((retryComplete p inner).2.2 =
      (List.range ((retryComplete p inner).2.1 - 1)).map
        fun i => min (p.baseDelay * 2 ^ i) p.maxDelay) := by
  unfold retryComplete
  rw [hN]
  refine ⟨retryRun_calls_le p inner N 0 none, fun hin => ⟨?_, ?_⟩, ?_⟩
  · intro hre hpos
    have h := retryRun_exhausts p inner errs hin N 0 none
      (fun k hk => hre k (by omega))
    rcases h with ⟨hres, hcalls⟩
    refine ⟨?_, hcalls⟩
    rw [hres]
    have : ¬(N = 0) := by omega
    simp [this]
  · intro j hj hks hjf
    have h := retryRun_stops_nonretryable p inner errs hin j N 0 none hj
      (fun k hk => by simpa using hks k hk)
      (by simpa using hjf)
    simpa using h
  · have h := retryRun_sleeps_zero p inner N none
    rw [h]
    apply List.map_congr_left
    intro i _
    simp [calculateBackoff]

/-- C6 witness: a concrete policy with 3 attempts, base delay 10 and cap
1000 against an always-retryable failing backend: exactly 3 calls, the
wrapped `ErrMaxRetriesExceed`, and sleeps 10, 20; and against a backend
whose second attempt fails non-retryably: that error after 2 calls. -/
theorem retryComplete_spec_witness :
    (retryComplete
        ⟨3, 10, 1000, fun _ => true⟩
        (fun _ => .error (.sentinel .rateLimited))).1 =
        .error (maxRetriesError (some (.sentinel .rateLimited))) ∧
      (retryComplete ⟨3, 10, 1000, fun _ => true⟩
        (fun _ => .error (.sentinel .rateLimited))).2.1 = 3 ∧
      (retryComplete ⟨3, 10, 1000, fun _ => true⟩
        (fun _ => .error (.sentinel .rateLimited))).2.2 = [10, 20] ∧
      (retryComplete ⟨3, 10, 1000, fun e => e ≠ .sentinel .authFailed⟩
        (fun k => .error (if k = 0 then .sentinel .rateLimited
          else .sentinel .authFailed))).1 =
        .error (.sentinel .authFailed) ∧
      (retryComplete ⟨3, 10, 1000, fun e => e ≠ .sentinel .authFailed⟩
        (fun k => .error (if k = 0 then .sentinel .rateLimited
          else .sentinel .authFailed))).2.1 = 2 := by
  have h1 := retryComplete_spec ⟨3, 10, 1000, fun _ => true⟩
    (fun _ => .error (.sentinel .rateLimited))
    (fun _ => .sentinel .rateLimited) 3 rfl
  have h2 := retryComplete_spec
    ⟨3, 10, 1000, fun e => e ≠ .sentinel .authFailed⟩
    (fun k => .error (if k = 0 then .sentinel .rateLimited
      else .sentinel .authFailed))
    (fun k => if k = 0 then .sentinel .rateLimited
      else .sentinel .authFailed) 3 rfl
  have h1a := (h1.2.1 (fun k => rfl)).1 (fun k _ => rfl) (by omega)
  have h2a := (h2.2.1 (fun k => rfl)).2 1 (by omega)
    (fun k hk => by interval_cases k <;> decide)
    (by decide)
  have h1c := h1.2.2
  refine ⟨h1a.1, h1a.2, ?_, by simpa using h2a.1, by simpa using h2a.2⟩
  rw [h1c, h1a.2]
  decide

/-- C10 (confirmed): a retry wrapper built with `maxAttempts ≤ 0` fails
both `Complete` and `Stream` with `ErrMaxRetriesExceed` wrapping a nil
last error, performing zero inner invocations. -/
theorem retry_nonpositive_attempts (p : RetryPolicy)
    (innerC : Nat → Except GoError Response)
    (innerS : Nat → Except GoError (List Event))
    (h : p.maxAttempts ≤ 0) :
    retryComplete p innerC = (.error (maxRetriesError none), 0, []) ∧
      retryStream p innerS = (.error (maxRetriesError none), 0, []) ∧
      errIs (maxRetriesError none) .maxRetriesExceed = true := by
  have h0 : p.maxAttempts.toNat = 0 := Int.toNat_of_nonpos h
  unfold retryComplete retryStream
  rw [h0]
  exact ⟨rfl, rfl, rfl⟩

/-- C10 witness: a wrapper with `maxAttempts = 0` over a backend that
would succeed: both entry points still fail with the wrapped
`ErrMaxRetriesExceed` and the backend is never invoked. -/
theorem retry_nonpositive_attempts_witness :
    retryComplete ⟨0, 10, 1000, fun _ => true⟩ (fun _ => .ok {}) =
        (.error (maxRetriesError none), 0, []) ∧
      retryStream ⟨0, 10, 1000, fun _ => true⟩ (fun _ => .ok []) =
        (.error (maxRetriesError none), 0, []) ∧
      errIs (maxRetriesError none) .maxRetriesExceed = true := by
  exact retry_nonpositive_attempts ⟨0, 10, 1000, fun _ => true⟩
    (fun _ => .ok {}) (fun _ => .ok []) (by decide)

end Middleware

namespace LLMRouter

/-! ## Claim C2 — the provider name carried by responses -/

/-- The `DefaultModels` of the Anthropic adapter (part_002 lines 22–30). -/
def anthropicDefaultModels : List String :=
  ["claude-opus-4-20250514", "claude-sonnet-4-20250514",
   "claude-3-5-haiku-20241022", "claude-3-5-sonnet-20241022",
   "claude-3-opus-20240229", "claude-3-sonnet-20240229",
   "claude-3-haiku-20240307"]

/-- The `DefaultModels` of the Gemini adapter (part_001 lines 285–290). -/
def geminiDefaultModels : List String :=
  ["gemini-1.5-pro", "gemini-1.5-flash", "gemini-2.0-flash-exp",
   "gemini-1.0-pro"]

/-- The Anthropic adapter as a `Provider` value: fixed `Name()`, the
default model list, tool support, `Complete` over the given backend, and
`Stream` over the given SDK event feed. -/
def anthropicProviderModel (defaultModel : String)
    (backend : String → Except GoError Anthropic.SDKMessage)
    (streamFeed : List Anthropic.StreamEvent) (now : Int) : Provider :=
  { name := "anthropic"
    models := anthropicDefaultModels
    supportsTools := true
    complete := Anthropic.complete defaultModel backend
    stream := fun req =>
      .ok (Anthropic.streamEvents streamFeed none
        (Anthropic.dispatchModel defaultModel req.model) now) }

/-- The Gemini adapter as a `Provider` value. -/
def geminiProviderModel (defaultModel : String)
    (backend : String → Except GoError Gemini.SDKResponse)
    (chunks : List Gemini.SDKResponse) (now : Int) : Provider :=
  { name := "gemini"
    models := geminiDefaultModels
    supportsTools := true
    complete := Gemini.complete defaultModel backend now
    stream := fun req =>
      .ok (Gemini.streamEvents chunks none
        (Gemini.dispatchModel defaultModel req.model) now) }

/-- Every wrapper the repository ships passes a successful inner
`Complete` result through unchanged. -/
theorem buildChain_complete_ok (mws : List Middleware.Wrapper)
    (p : Provider) (req : Request) (resp : Response) :
    (buildChain mws p).complete req = .ok resp →
      p.complete req = .ok resp := by
  induction mws with
  | nil => exact id
  | cons m rest ih =>
    intro h
    apply ih
    cases m with
    | timeout d => exact h
    | retry pol =>
      simp only [buildChain, List.foldr_cons, Middleware.Wrapper.wrap] at h
      obtain ⟨k, hk⟩ :=
        Middleware.retryRun_ok_from_inner pol _ _ 0 none resp h
      exact hk
    | circuitBreaker allow =>
      simp only [buildChain, List.foldr_cons, Middleware.Wrapper.wrap] at h
      by_cases ha : allow = true
      · simpa [ha] using h
      · simp [ha] at h

/-- A fixed sample backend reply used by the concrete counterexample. -/
def sampleSDKMessage : Anthropic.SDKMessage :=
  { id := "msg_1"
    model := "claude-sonnet-4-20250514"
    stopReason := "end_turn"
    content := [.text "hello"]
    inputTokens := 1
    outputTokens := 2 }

/-- C2 (counterexample): registering the Anthropic adapter under the
registry key `"X"` and completing for model `"X"` succeeds with
`Response.Provider = "anthropic"`, the adapter's own name — not the
registered name, as the claim requires. -/
theorem response_provider_ne_registered_name :
    (Router.complete
        ⟨[("X", anthropicProviderModel "claude-sonnet-4-20250514"
            (fun _ => .ok sampleSDKMessage) [] 0)], [], []⟩
        { model := "X" }).map (·.provider) = .ok "anthropic" ∧
      "anthropic" ≠ "X" := by
  constructor
  · rfl
  · decide

/-- C2 (amended): a successful `Router.Complete` returns exactly what the
resolved provider's `Complete` produced — no wrapper in the repository's
middleware chain alters the response, so `Response.Provider` is whatever
the resolved provider stamped there; the Anthropic and Gemini adapters
stamp their own fixed `Name()` (`"anthropic"` / `"gemini"`), which equals
the registered name only when the provider is registered under its own
name. -/
theorem router_response_provider (r : Router) (req : Request)
    (resp : Response) :
    (r.complete req = .ok resp →
      ∃ p, resolveProvider r.providers r.modelMap req.model = .ok p ∧
        p.complete req = .ok resp) ∧
    (∀ d backend, Anthropic.complete d backend req = .ok resp →
      resp.provider = "anthropic") ∧
    (∀ d backend now, Gemini.complete d backend now req = .ok resp →
      resp.provider = "gemini") := by
  refine ⟨?_, ?_, ?_⟩
  · intro h
    unfold Router.complete at h
    cases hres : resolveProvider r.providers r.modelMap req.model with
    | error e => rw [hres] at h; cases h
    | ok p =>
      rw [hres] at h
      exact ⟨p, rfl, buildChain_complete_ok r.middleware p req resp h⟩
  · intro d backend h
    unfold Anthropic.complete at h
    cases hb : backend (Anthropic.dispatchModel d req.model) with
    | error e => rw [hb] at h; cases h
    | ok msg =>
      rw [hb] at h
      injection h with h
      rw [← h]
      rfl
  · intro d backend now h
    unfold Gemini.complete at h
    cases hb : backend (Gemini.dispatchModel d req.model) with
    | error e => rw [hb] at h; cases h
    | ok resp' =>
      rw [hb] at h
      injection h with h
      rw [← h]
      rfl

/-- C2 witness: the concrete router of the counterexample’s shape but
registered under the adapter's own name and with a timeout middleware in
the chain: the resolved provider's `Complete` result is the returned
response, and its provider field is `"anthropic"`. -/
theorem router_response_provider_witness :
    (∃ p, resolveProvider
        [("anthropic", anthropicProviderModel "claude-sonnet-4-20250514"
          (fun _ => .ok sampleSDKMessage) [] 0)] [] "anthropic" = .ok p ∧
      p.complete { model := "anthropic" } =
        .ok (Anthropic.convertToOpenAIResponse sampleSDKMessage
          "anthropic")) ∧
    (Anthropic.convertToOpenAIResponse sampleSDKMessage
        "anthropic").provider = "anthropic" := by
  have h := router_response_provider
    ⟨[("anthropic", anthropicProviderModel "claude-sonnet-4-20250514"
        (fun _ => .ok sampleSDKMessage) [] 0)], [], [.timeout 5]⟩
    { model := "anthropic" }
    (Anthropic.convertToOpenAIResponse sampleSDKMessage "anthropic")
  exact ⟨h.1 rfl, h.2.1 "claude-sonnet-4-20250514"
    (fun _ => .ok sampleSDKMessage) rfl⟩

/-! ## Claim C8 — default-model substitution before dispatch -/

/-- C8 (counterexample): a request whose model field equals the Gemini
adapter's own provider name `"gemini"` is sent to the backend as
`"gemini"`, not as the configured default model — observed through a
backend that reports back the model string it was dispatched.  (The
Anthropic adapter does substitute in this case; Gemini checks only for
the empty string.) -/
theorem gemini_dispatch_claim_false :
    Gemini.complete "gemini-1.5-flash" (fun m => .error (.plain m)) 0
        { model := "gemini" } = .error (.plain "gemini") ∧
      "gemini" ≠ "gemini-1.5-flash" := by
  constructor
  · rfl
  · decide

/-- C8 (amended): the Anthropic adapter substitutes its configured
default model when the request's model is empty **or** equals
`"anthropic"`; the Gemini adapter substitutes only when the model is
empty and dispatches a provider-matching model string `"gemini"`
verbatim.  The dispatched string is exactly what each adapter's
`Complete` hands its backend, as witnessed by a reporting backend. -/
theorem dispatch_model_amended (d m : String) :
    ((m = "" ∨ m = "anthropic") → Anthropic.dispatchModel d m = d) ∧
    (¬(m = "" ∨ m = "anthropic") → Anthropic.dispatchModel d m = m) ∧
    (m = "" → Gemini.dispatchModel d m = d) ∧
    (m ≠ "" → Gemini.dispatchModel d m = m) ∧
    (Anthropic.complete d (fun s => .error (.plain s)) { model := m } =
      .error (.plain (Anthropic.dispatchModel d m))) ∧
    (Gemini.complete d (fun s => .error (.plain s)) 0 { model := m } =
      .error (.plain (Gemini.dispatchModel d m))) := by
  refine ⟨fun h => ?_, fun h => ?_, fun h => ?_, fun h => ?_, rfl, rfl⟩
  · unfold Anthropic.dispatchModel
    rw [if_pos h]
  · unfold Anthropic.dispatchModel
    rw [if_neg h]
  · unfold Gemini.dispatchModel
    rw [if_pos h]
  · unfold Gemini.dispatchModel
    rw [if_neg h]

/-- C8 witness: concrete substitutions — Anthropic with model
`"anthropic"` and with the empty model dispatches the default `"dm"`;
Gemini with the empty model dispatches `"dm"`, while a non-empty model
`"m1"` passes through both adapters. -/
theorem dispatch_model_amended_witness :
    Anthropic.dispatchModel "dm" "anthropic" = "dm" ∧
      Anthropic.dispatchModel "dm" "" = "dm" ∧
      Gemini.dispatchModel "dm" "" = "dm" ∧
      Anthropic.dispatchModel "dm" "m1" = "m1" ∧
      Gemini.dispatchModel "dm" "m1" = "m1" := by
  refine ⟨(dispatch_model_amended "dm" "anthropic").1 (by decide),
    (dispatch_model_amended "dm" "").1 (by decide),
    (dispatch_model_amended "dm" "").2.2.1 (by decide),
    (dispatch_model_amended "dm" "m1").2.1 (by decide),
    (dispatch_model_amended "dm" "m1").2.2.2.1 (by decide)⟩

/-! ## Claim C5 — finish-reason when tool calls are present -/

/-- The tool calls of the first choice's assistant message. -/
def assistantToolCalls (r : Response) : List ToolCall :=
  ((r.choices.head?.bind (·.message)).map (·.toolCalls)).getD []

/-- The finish-reason of the first choice. -/
def headFinish (r : Response) : Option String :=
  r.choices.head?.map (·.finishReason)

/-- C5 (counterexample): an Anthropic reply carrying a tool-use block but
native stop reason `"end_turn"` converts to a response whose assistant
message has one tool call while its finish-reason is `"stop"`, not
`"tool_calls"` as the claim requires. -/
theorem anthropic_toolcall_finish_claim_false :
    assistantToolCalls (Anthropic.convertToOpenAIResponse
        ⟨"m1", "c", "end_turn", [.toolUse "t1" "f" "\x7b\x7d"], 1, 2⟩
        "anthropic") =
      [⟨"t1", "function", ⟨"f", "\x7b\x7d"⟩, none⟩] ∧
    headFinish (Anthropic.convertToOpenAIResponse
        ⟨"m1", "c", "end_turn", [.toolUse "t1" "f" "\x7b\x7d"], 1, 2⟩
        "anthropic") =
      some "stop" ∧
    "stop" ≠ "tool_calls" := by
  refine ⟨rfl, rfl, by decide⟩

/-- C5 (amended): the Gemini converter does force finish-reason
`"tool_calls"` whenever the converted assistant message carries a tool
call (and its streaming `Done` response does the same); the Anthropic
adapter instead derives the finish-reason solely from the backend's
native stop reason, in both the non-streaming converter and the
streaming `Done` response, so tool calls under a different native stop
reason do not yield `"tool_calls"`. -/
theorem finish_reason_amended :
    (∀ (resp : Gemini.SDKResponse) (m pr : String) (now : Int),
      assistantToolCalls (Gemini.convertResponse resp m pr now) ≠ [] →
      headFinish (Gemini.convertResponse resp m pr now) =
        some "tool_calls") ∧
    (∀ (st : Gemini.StreamState) (m : String) (now : Int),
      assistantToolCalls (Gemini.streamDoneResponse st m now) ≠ [] →
      headFinish (Gemini.streamDoneResponse st m now) =
        some "tool_calls") ∧
    (∀ (msg : Anthropic.SDKMessage) (pr : String),
      headFinish (Anthropic.convertToOpenAIResponse msg pr) =
        some (Anthropic.stopToFinish msg.stopReason)) ∧
    (∀ (st : Anthropic.StreamState) (m : String) (now : Int),
      headFinish (Anthropic.streamDoneResponse st m now) =
        some (Anthropic.streamStopToFinish st.stopReason)) := by
  refine ⟨?_, ?_, fun msg pr => rfl, fun st m now => rfl⟩
  · intro resp m pr now h
    have h2 : (Gemini.extractResponse resp).2 ≠ [] := by
      simpa [assistantToolCalls, Gemini.convertResponse] using h
    simp [headFinish, Gemini.convertResponse, h2]
  · intro st m now h
    have h2 : st.toolCalls ≠ [] := by
      simpa [assistantToolCalls, Gemini.streamDoneResponse] using h
    simp [headFinish, Gemini.streamDoneResponse, h2]

/-- C5 witness: a concrete Gemini reply with one function-call part
converts with finish-reason `"tool_calls"`, and a concrete Anthropic
reply with native stop reason `"tool_use"` maps to `"tool_calls"`. -/
theorem finish_reason_amended_witness :
    headFinish (Gemini.convertResponse
        ⟨[⟨some [.functionCall "f" none], "Stop"⟩], none⟩ "m" "gemini" 0) =
      some "tool_calls" ∧
    headFinish (Anthropic.convertToOpenAIResponse
        ⟨"m2", "c", "tool_use", [.toolUse "t1" "f" "\x7b\x7d"], 1, 2⟩
        "anthropic") =
      some (Anthropic.stopToFinish "tool_use") := by
  refine ⟨finish_reason_amended.1
      ⟨[⟨some [.functionCall "f" none], "Stop"⟩], none⟩ "m" "gemini" 0
      (by decide),
    finish_reason_amended.2.2.1
      ⟨"m2", "c", "tool_use", [.toolUse "t1" "f" "\x7b\x7d"], 1, 2⟩
      "anthropic"⟩

/-! ## Claim C9 — usage totaling and absence -/

/-- C9 (counterexample): the Gemini converter copies the backend's
`TotalTokenCount` verbatim; a backend reporting usage `{1, 1, 5}`
converts to usage whose total (5) differs from prompt + completion (2),
contradicting the claim. -/
theorem gemini_usage_total_claim_false :
    (Gemini.convertResponse
        ⟨[⟨some [.text "hi"], "Stop"⟩], some ⟨1, 1, 5⟩⟩
        "m" "gemini" 0).usage = some ⟨1, 1, 5⟩ ∧
    (5 : Int) ≠ 1 + 1 := by
  refine ⟨rfl, by decide⟩

/-- C9 (amended): the Anthropic adapter always synthesizes usage with
`total = prompt + completion` (non-streaming converter and streaming
`Done` response alike); the Gemini converter carries usage exactly when
the backend reports usage metadata, copying all three counts verbatim —
so its total equals prompt + completion only when the backend's counts
already satisfy that, and absent usage stays absent. -/
theorem usage_totaling_amended :
    (∀ (msg : Anthropic.SDKMessage) (pr : String) (u : Usage),
      (Anthropic.convertToOpenAIResponse msg pr).usage = some u →
      u.totalTokens = u.promptTokens + u.completionTokens) ∧
    (∀ (st : Anthropic.StreamState) (m : String) (now : Int) (u : Usage),
      (Anthropic.streamDoneResponse st m now).usage = some u →
      u.totalTokens = u.promptTokens + u.completionTokens) ∧
    (∀ (resp : Gemini.SDKResponse) (m pr : String) (now : Int),
      resp.usageMetadata = none →
      (Gemini.convertResponse resp m pr now).usage = none) ∧
    (∀ (resp : Gemini.SDKResponse) (m pr : String) (now : Int)
      (mu : Gemini.UsageMetadata),
      resp.usageMetadata = some mu →
      (Gemini.convertResponse resp m pr now).usage =
        some ⟨mu.promptTokenCount, mu.candidatesTokenCount,
          mu.totalTokenCount⟩) := by
  refine ⟨?_, ?_, ?_, ?_⟩
  · intro msg pr u h
    unfold Anthropic.convertToOpenAIResponse at h
    injection h with h
    rw [← h]
  · intro st m now u h
    unfold Anthropic.streamDoneResponse at h
    injection h with h
    rw [← h]
  · intro resp m pr now h
    unfold Gemini.convertResponse
    rw [h]
    rfl
  · intro resp m pr now mu h
    unfold Gemini.convertResponse
    rw [h]
    rfl

/-- C9 witness: a concrete Anthropic reply with 3 input and 4 output
tokens converts to usage totalling 7 = 3 + 4; a Gemini reply without
usage metadata converts to absent usage; one with metadata `{2, 3, 5}`
copies it verbatim. -/
theorem usage_totaling_amended_witness :
    ((Anthropic.convertToOpenAIResponse
        ⟨"m3", "c", "end_turn", [.text "ok"], 3, 4⟩
        "anthropic").usage = some ⟨3, 4, 7⟩ ∧ (7 : Int) = 3 + 4) ∧
    (Gemini.convertResponse ⟨[], none⟩ "m" "gemini" 0).usage = none ∧
    (Gemini.convertResponse ⟨[], some ⟨2, 3, 5⟩⟩ "m" "gemini" 0).usage =
      some ⟨2, 3, 5⟩ := by
  have h1 := usage_totaling_amended.1
    ⟨"m3", "c", "end_turn", [.text "ok"], 3, 4⟩ "anthropic" ⟨3, 4, 7⟩ rfl
  have h2 := usage_totaling_amended.2.2.1 ⟨[], none⟩ "m" "gemini" 0 rfl
  have h3 := usage_totaling_amended.2.2.2 ⟨[], some ⟨2, 3, 5⟩⟩ "m"
    "gemini" 0 ⟨2, 3, 5⟩ rfl
  exact ⟨⟨rfl, h1⟩, h2, h3⟩

/-! ## Claim C3 — stream concatenation (invariant S1 / P2) -/

/-- The `contentConcat` distributes over append. -/
theorem contentConcat_append (a b : List Event) :
    contentConcat (a ++ b) = contentConcat a ++ contentConcat b := by
  induction a with
  | nil => simp [contentConcat]
  | cons e rest ih =>
    cases e <;> simp [contentConcat, ih, String.append_assoc]

/-- Invariant of the Gemini part loop: the accumulated content grows by
exactly the concatenated `ContentDelta` texts emitted. -/
theorem gemini_partsRun_content (parts : List Gemini.Part) :
    ∀ st : Gemini.StreamState,
      (Gemini.partsRun parts st).1.fullContent =
        st.fullContent ++ contentConcat (Gemini.partsRun parts st).2 := by
  induction parts with
  | nil => intro st; simp [Gemini.partsRun, contentConcat]
  | cons p rest ih =>
    intro st
    cases p with
    | text s =>
      simp [Gemini.partsRun, Gemini.partStep, contentConcat, ih,
        String.append_assoc]
    | functionCall name args =>
      simp [Gemini.partsRun, Gemini.partStep, contentConcat, ih]

/-- The part loop leaves the event list free of terminators. -/
theorem gemini_partsRun_no_terminal (parts : List Gemini.Part) :
    ∀ st : Gemini.StreamState,
      ∀ e ∈ (Gemini.partsRun parts st).2, e.isTerminal = false := by
  induction parts with
  | nil => intro st e he; simp [Gemini.partsRun] at he
  | cons p rest ih =>
    intro st e he
    cases p with
    | text s =>
      simp only [Gemini.partsRun, Gemini.partStep, List.mem_cons,
        List.singleton_append] at he
      rcases he with rfl | he
      · rfl
      · exact ih _ e he
    | functionCall name args =>
      simp only [Gemini.partsRun, Gemini.partStep, List.mem_cons,
        List.singleton_append] at he
      rcases he with rfl | he
      · rfl
      · exact ih _ e he

/-- Invariant of the Gemini candidate loop. -/
theorem gemini_candidatesRun_content (cands : List Gemini.Candidate) :
    ∀ st : Gemini.StreamState,
      (Gemini.candidatesRun cands st).1.fullContent =
        st.fullContent ++
          contentConcat (Gemini.candidatesRun cands st).2 := by
  induction cands with
  | nil => intro st; simp [Gemini.candidatesRun, contentConcat]
  | cons c rest ih =>
    intro st
    cases hc : c.content with
    | none => simp [Gemini.candidatesRun, hc, ih, contentConcat]
    | some parts =>
      simp [Gemini.candidatesRun, hc, ih, contentConcat_append,
        gemini_partsRun_content, String.append_assoc]

/-- Invariant of the Gemini chunk loop. -/
theorem gemini_chunksRun_content (chunks : List Gemini.SDKResponse) :
    ∀ st : Gemini.StreamState,
      (Gemini.chunksRun chunks st).1.fullContent =
        st.fullContent ++ contentConcat (Gemini.chunksRun chunks st).2 := by
  induction chunks with
  | nil => intro st; simp [Gemini.chunksRun, contentConcat]
  | cons chunk rest ih =>
    intro st
    simp [Gemini.chunksRun, ih, contentConcat_append,
      gemini_candidatesRun_content, String.append_assoc]

/-- Invariant of the Anthropic stream loop. -/
theorem anthropic_streamRun_content (evs : List Anthropic.StreamEvent) :
    ∀ st : Anthropic.StreamState,
      (Anthropic.streamRun evs st).1.fullContent =
        st.fullContent ++
          contentConcat (Anthropic.streamRun evs st).2 := by
  induction evs with
  | nil => intro st; simp [Anthropic.streamRun, contentConcat]
  | cons e rest ih =>
    intro st
    cases e with
    | messageStart id inputTokens =>
      simp [Anthropic.streamRun, Anthropic.streamStep, ih, contentConcat]
    | contentBlockStartText =>
      simp [Anthropic.streamRun, Anthropic.streamStep, ih, contentConcat]
    | contentBlockStartToolUse id name =>
      simp [Anthropic.streamRun, Anthropic.streamStep, ih, contentConcat]
    | contentBlockDeltaText text =>
      simp [Anthropic.streamRun, Anthropic.streamStep, ih, contentConcat,
        String.append_assoc]
    | contentBlockDeltaInputJSON partialJSON =>
      simp [Anthropic.streamRun, Anthropic.streamStep, ih, contentConcat]
    | contentBlockStop =>
      by_cases h : (Anthropic.streamStep st .contentBlockStop).1 = st
      all_goals
        simp only [Anthropic.streamRun, Anthropic.streamStep]
        split_ifs <;> simp [ih, contentConcat]
    | messageDelta stopReason outputTokens =>
      simp [Anthropic.streamRun, Anthropic.streamStep, ih, contentConcat]

/-- C3 (confirmed): for both streaming adapters, on any backend feed
that ends without error, the concatenation of the `Content` fields of
all emitted `ContentDelta` events equals the assistant-message content
carried in the terminal `Done` event's response. -/
theorem stream_content_concat :
    (∀ (chunks : List Gemini.SDKResponse) (m : String) (now : Int),
      ∃ r, (Gemini.streamEvents chunks none m now).getLast? =
          some (.done r) ∧
        assistantContent r =
          some (contentConcat (Gemini.streamEvents chunks none m now))) ∧
    (∀ (evs : List Anthropic.StreamEvent) (m : String) (now : Int),
      ∃ r, (Anthropic.streamEvents evs none m now).getLast? =
          some (.done r) ∧
        assistantContent r =
          some (contentConcat (Anthropic.streamEvents evs none m now))) := by
  constructor
  · intro chunks m now
    refine ⟨Gemini.streamDoneResponse (Gemini.chunksRun chunks {}).1 m now,
      ?_, ?_⟩
    · simp [Gemini.streamEvents]
    · have h := gemini_chunksRun_content chunks {}
      simp only [Gemini.streamEvents, contentConcat_append]
      simp [assistantContent, Gemini.streamDoneResponse, h, contentConcat]
  · intro evs m now
    refine ⟨Anthropic.streamDoneResponse
      (Anthropic.streamRun evs {}).1 m now, ?_, ?_⟩
    · simp [Anthropic.streamEvents]
    · have h := anthropic_streamRun_content evs {}
      simp only [Anthropic.streamEvents, contentConcat_append]
      simp [assistantContent, Anthropic.streamDoneResponse, h,
        contentConcat]

/-! ## Claim C4 — terminator uniqueness under the timeout wrapper -/

/-- C4 (code defect, evaluated): when the inner stream terminates with
`Done` and the timeout wrapper's context expires after the `Done` was
forwarded but before the inner channel close is observed (schedule
point 1), the wrapped channel emits `Error` **after** `Done`: two
terminal events, with an event following the terminator — while the
adapters' own feeds (here the inner `[Done]`) do satisfy the
property. -/
theorem timeout_stream_double_terminal :
    Middleware.timeoutStreamEvents [Event.done {}] (some 1) =
      [Event.done {}, Event.error Middleware.ctxDeadlineErr] ∧
    oneTerminalAtEnd
      [Event.done {}, Event.error Middleware.ctxDeadlineErr] = false ∧
    oneTerminalAtEnd [Event.done {}] = true := by
  refine ⟨rfl, by decide, by decide⟩

end LLMRouter
